import Mathlib

/-!
Shallow embedding of the EclipseTab drag-and-drop core
(`src/utils/dragUtils.ts`, `src/utils/dragStrategies.ts`,
`src/hooks/useDragAndDrop.ts`, `src/App.tsx`).

Pixel coordinates are modelled as `Int`; the translated code only ever
compares, adds and scales them, so no floating-point behaviour is lost.
List indices carried in drag state are modelled as `Int` because the code
uses `-1` as the "external drag" sentinel for `originalIndex`.
-/

namespace EclipseTab

/-- The `type` tag of a `DockItem` (`'app' | 'folder'` in `src/types`). -/
inductive ItemType where
  | app
  | folder
deriving DecidableEq, Repr

/-- Model of `DockItem` from `src/types`: `{id, name, url?, icon?, type, items?}`.
The `icon` field (an opaque rendered data URL produced by
`generateFolderIcon`, a canvas/SVG rendering helper the spec excludes from
the core) is omitted: no claim mentions icon contents.  `items` is present
only for folders; the type itself permits nesting, as in the source. -/
inductive DockItem where
  | mk (id : String) (name : String) (url : Option String)
       (type : ItemType) (items : Option (List DockItem)) : DockItem

/-- Field accessor for `DockItem.id`. -/
def DockItem.id : DockItem → String
  | .mk i _ _ _ _ => i

/-- Field accessor for `DockItem.name`. -/
def DockItem.nameF : DockItem → String
  | .mk _ n _ _ _ => n

/-- Field accessor for `DockItem.url`. -/
def DockItem.url : DockItem → Option String
  | .mk _ _ u _ _ => u

/-- Field accessor for `DockItem.type`. -/
def DockItem.type : DockItem → ItemType
  | .mk _ _ _ t _ => t

/-- Field accessor for `DockItem.items`. -/
def DockItem.items : DockItem → Option (List DockItem)
  | .mk _ _ _ _ its => its

/-- Evaluates `item.items || []` — the JS idiom used throughout `App.tsx`. -/
def DockItem.itemsD (i : DockItem) : List DockItem := i.items.getD []

/-- The dock item list invariant that ids are unique
("`id`: stable unique string" in the data model). -/
def idsNodup (l : List DockItem) : Prop := (l.map DockItem.id).Nodup

instance : DecidablePred idsNodup := fun l =>
  inferInstanceAs (Decidable (l.map DockItem.id).Nodup)

/-- Two-level-tree well-formedness: no folder in the list directly contains
a folder-typed item. -/
def noNestedFolders (l : List DockItem) : Bool :=
  l.all fun i =>
    match i.type, i.items with
    | ItemType.folder, some inner => inner.all fun j => !(j.type == ItemType.folder)
    | _, _ => true

/-- A dragged item is a well-formed drop payload: if it is a folder it
carries an items list and none of those children is folder-typed. -/
def folderPayloadOk (d : DockItem) : Bool :=
  match d.type, d.items with
  | ItemType.folder, some l => l.all fun j => !(j.type == ItemType.folder)
  | ItemType.folder, none => false
  | _, _ => true

/-! ## Geometry utilities (`src/utils/dragUtils.ts`) -/

/-- Loop body of `calculateInsertIndex` (`dragUtils.ts` lines 143-160):
iterate over the item refs (a ref may be `null`, modelled as `none`,
carrying otherwise its bounding-rect center X) and return the loop index
of the first ref whose center X strictly exceeds `mouseX`. -/
def calcInsertIndexGo (mouseX : Int) (itemCount : Nat) :
    List (Option Int) → Nat → Nat
  | [], _ => itemCount
  | none :: rest, i => calcInsertIndexGo mouseX itemCount rest (i + 1)
  | some centerX :: rest, i =>
      if mouseX < centerX then i else calcInsertIndexGo mouseX itemCount rest (i + 1)

/-- Embeds `calculateInsertIndex(mouseX, itemRefs, itemCount)` from `dragUtils.ts`:
first index `i` with `mouseX < centerX(itemRefs[i])`, else `itemCount`. -/
def calculateInsertIndex (mouseX : Int) (itemRefs : List (Option Int))
    (itemCount : Nat) : Nat :=
  calcInsertIndexGo mouseX itemCount itemRefs 0

/-- One entry of a `LayoutSnapshot` (`LayoutItem` in `dragUtils.ts`):
id, original index, bounding rect, and precomputed center. -/
structure LayoutItem where
  id : String
  index : Nat
  rectLeft : Int
  rectTop : Int
  rectRight : Int
  rectBottom : Int
  centerX : Int
  centerY : Int
deriving DecidableEq, Repr

/-- Embeds `reorderList(list, startIndex, endIndex)` from `dragUtils.ts` lines
330-335: `splice` the element out at `startIndex` and `splice` it back in
at `endIndex`.  When `startIndex` is out of range the JS code would splice
`undefined` into the array; that degenerate case is modelled as `none`. -/
def reorderList (list : List α) (startIndex endIndex : Nat) : Option (List α) :=
  match list[startIndex]? with
  | none => none
  | some removed =>
    let result := list.take startIndex ++ list.drop (startIndex + 1)
    some (result.take endIndex ++ removed :: result.drop endIndex)

/-! ## Dock placeholder computation and reorder commit
(`src/hooks/useDragAndDrop.ts`) -/

/-- Loop of the reordering branch of `handleMouseMove`
(`useDragAndDrop.ts` lines 275-284): first snapshot position whose center X
strictly exceeds `mouseX`, else `itemsRef.current.length`. -/
def dockPlaceholderGo (mouseX : Int) (itemsLength : Nat) :
    List LayoutItem → Nat → Nat
  | [], _ => itemsLength
  | it :: rest, i =>
      if mouseX < it.centerX then i else dockPlaceholderGo mouseX itemsLength rest (i + 1)

/-- The placeholder computation of the dock `handleMouseMove`
(`useDragAndDrop.ts` lines 256-311, reordering branch): empty snapshot or
empty item list yield slot 0, otherwise scan the snapshot. -/
def dockComputePlaceholder (mouseX : Int) (snapshot : List LayoutItem)
    (itemsLength : Nat) : Nat :=
  if snapshot.length > 0 then
    if itemsLength = 0 then 0
    else dockPlaceholderGo mouseX itemsLength snapshot 0
  else 0

/-- The reorder-commit list computation of `handleMouseUp`
(`useDragAndDrop.ts` lines 431-441): for an internal drag
(`originalIndex ≠ -1`) decrement the insertion index when it exceeds the
source index, then splice-move; an external drag leaves the copied list
unchanged.  An out-of-range `originalIndex` (where JS would move
`undefined`) never occurs for a live drag session and is modelled as the
unchanged list. -/
def dockReorderCommit (currentItems : List DockItem) (originalIndex : Int)
    (placeholder : Nat) : List DockItem :=
  if originalIndex = -1 then currentItems
  else
    let oldIndex := originalIndex.toNat
    let insertIndex := if (placeholder : Int) > originalIndex then placeholder - 1 else placeholder
    match currentItems[oldIndex]? with
    | none => currentItems
    | some moved =>
      let rest := currentItems.take oldIndex ++ currentItems.drop (oldIndex + 1)
      rest.take insertIndex ++ moved :: rest.drop insertIndex

/-! ## Layout strategies (`src/utils/dragStrategies.ts`) -/

/-- The `cellSize` of the horizontal dock strategy: 64px icon + 8px gap. -/
def dockCellSize : Int := 72

/-- Embeds `createHorizontalStrategy().calculateTransform` (`dragStrategies.ts`
lines 95-127): 1-D squeeze offset for the dock row. -/
def horizontalCalculateTransform (index : Int) (targetSlot : Option Int)
    (originalIndex : Int) (isDragging : Bool) : Int × Int :=
  match targetSlot with
  | none => (0, 0)
  | some ts =>
    if isDragging ∧ originalIndex ≠ -1 then
      if index = originalIndex then (0, 0)
      else if ts = originalIndex ∨ ts = originalIndex + 1 then (0, 0)
      else if originalIndex < ts ∧ index > originalIndex ∧ index < ts then
        (-dockCellSize, 0)
      else if originalIndex > ts ∧ index ≥ ts ∧ index < originalIndex then
        (dockCellSize, 0)
      else (0, 0)
    else if originalIndex = -1 ∧ index ≥ ts then (dockCellSize, 0)
    else (0, 0)

/-- The fixed column count of the folder grid strategy. -/
def folderColumns : Int := 4

/-- The `cellSize` of the grid strategy: 64px icon + 8px gap. -/
def folderCellSize : Int := 72

/-- Embeds `calculateZShapedOffset(origIdx, visIdx)` inside
`createGridStrategy().calculateTransform` (`dragStrategies.ts` lines
164-174): pixel delta between the grid cell of `origIdx` and the grid cell
of `visIdx`.  JS `x % 4` truncates (`Int.tmod`) while `Math.floor(x / 4)`
is floor division (`Int.fdiv`); both agree on the non-negative indices the
strategy receives. -/
def calculateZShapedOffset (origIdx visIdx : Int) : Int × Int :=
  if origIdx = visIdx then (0, 0)
  else
    let curCol := origIdx.tmod folderColumns
    let curRow := origIdx.fdiv folderColumns
    let tgtCol := visIdx.tmod folderColumns
    let tgtRow := visIdx.fdiv folderColumns
    ((tgtCol - curCol) * folderCellSize, (tgtRow - curRow) * folderCellSize)

/-- Embeds `createGridStrategy(4).calculateTransform` (`dragStrategies.ts` lines
160-204): Z-shaped flow displacement for the folder grid. -/
def gridCalculateTransform (index : Int) (targetSlot : Option Int)
    (originalIndex : Int) (isDragging : Bool) : Int × Int :=
  match targetSlot with
  | none => (0, 0)
  | some ts =>
    if originalIndex = -1 then
      if index ≥ ts then calculateZShapedOffset index (index + 1) else (0, 0)
    else if isDragging ∧ originalIndex ≠ -1 then
      if index = originalIndex then (0, 0)
      else if originalIndex > ts ∧ index ≥ ts ∧ index < originalIndex then
        calculateZShapedOffset index (index + 1)
      else if originalIndex < ts ∧ index > originalIndex ∧ index ≤ ts then
        calculateZShapedOffset index (index - 1)
      else (0, 0)
    else (0, 0)

/-- Embeds `reorderItems(items, draggedItem, targetIndex)` (`dragStrategies.ts`
lines 231-243): filter the dragged item out by id then insert it at
`min targetIndex (filtered length)`. -/
def reorderItems (items : List DockItem) (draggedItem : DockItem)
    (targetIndex : Nat) : List DockItem :=
  let filteredItems := items.filter fun item => !(item.id == draggedItem.id)
  let insertAt := min targetIndex filteredItems.length
  filteredItems.take insertAt ++ draggedItem :: filteredItems.drop insertAt

/-! ## Folder mutation handlers (`src/App.tsx`) -/

/-- The JS `Array.prototype.findIndex`, returning `-1` when no element
matches. -/
def findIndexAux (p : DockItem → Bool) : List DockItem → Nat → Int
  | [], _ => -1
  | i :: rest, k => if p i then (k : Int) else findIndexAux p rest (k + 1)

/-- Evaluates `list.findIndex(p)` in JS. -/
def jsFindIndex (p : DockItem → Bool) (l : List DockItem) : Int :=
  findIndexAux p l 0

/-- Embeds `checkAndDissolveFolderIfNeeded(folderId, updatedItems)` (`App.tsx`
lines 206-227): remove a 0-item folder entirely, replace a 1-item folder
in place by its remaining item, otherwise return the list unchanged. -/
def checkAndDissolveFolderIfNeeded (folderId : String)
    (updatedItems : List DockItem) : List DockItem :=
  match updatedItems.find? (fun i => i.id == folderId) with
  | none => updatedItems
  | some folder =>
    match folder.type, folder.items with
    | ItemType.folder, some folderItems =>
      let folderIndex := jsFindIndex (fun i => i.id == folderId) updatedItems
      if folderIndex = -1 then updatedItems
      else
        match folderItems with
        | [] => updatedItems.filter fun i => !(i.id == folderId)
        | [remainingItem] => updatedItems.set folderIndex.toNat remainingItem
        | _ => updatedItems
    | _, _ => updatedItems

/-- The `{...i, items: newItems, icon: generateFolderIcon(newItems)}`
spread used by the `App.tsx` handlers (icon omitted, see `DockItem`). -/
def withItems (i : DockItem) (newItems : List DockItem) : DockItem :=
  match i with
  | .mk id name url t _ => .mk id name url t (some newItems)

/-- Embeds `handleDragToFolder(item)` (`App.tsx` lines 307-329) as a function of
the dock list and the open folder id: reject folders outright, else append
the item to the open folder's items and drop it from the dock root. -/
def handleDragToFolder (dockItems : List DockItem)
    (openFolderId : Option String) (item : DockItem) : List DockItem :=
  match openFolderId with
  | none => dockItems
  | some fid =>
    if item.type = ItemType.folder then dockItems
    else
      match dockItems.find? (fun i => i.id == fid) with
      | none => dockItems
      | some folder =>
        if folder.type ≠ ItemType.folder then dockItems
        else
          let newFolderItems := folder.itemsD ++ [item]
          (dockItems.map fun i =>
            if i.id == fid then withItems i newFolderItems else i).filter
            fun i => !(i.id == item.id)

/-- Embeds `handleDropOnFolder(dragItem, targetFolder)` (`App.tsx` lines 332-357):
merge a dragged folder's children (or the single dragged app) into the
target folder's items and remove the dragged item from the root. -/
def handleDropOnFolder (dockItems : List DockItem)
    (dragItem targetFolder : DockItem) : List DockItem :=
  if targetFolder.type ≠ ItemType.folder then dockItems
  else
    let itemsToAdd :=
      match dragItem.type, dragItem.items with
      | ItemType.folder, some dragItems => dragItems
      | _, _ => [dragItem]
    (dockItems.map fun item =>
      if item.id == targetFolder.id then withItems item (item.itemsD ++ itemsToAdd)
      else item).filter fun item => !(item.id == dragItem.id)

/-! ## Merge-dwell state machine (`useDragAndDrop.ts` lines 216-251,
constants from `src/constants/layout.ts`) -/

/-- The constant `HOVER_OPEN_DELAY` (ms). -/
def HOVER_OPEN_DELAY : Int := 500

/-- The constant `PRE_MERGE_DELAY` (ms). -/
def PRE_MERGE_DELAY : Int := 300

/-- The dwell-relevant state carried across pointer-move events by the dock
drag hook (`potentialMergeTarget`, `hoverStartTime`, `isPreMerge`,
`mergeTargetId`, `hoveredFolderId`, `hoveredAppId` refs/state). -/
structure MergeDwellState where
  potentialMergeTarget : Option String
  hoverStartTime : Int
  isPreMerge : Bool
  mergeTargetId : Option String
  hoveredFolderId : Option String
  hoveredAppId : Option String
deriving DecidableEq, Repr

/-- Result of processing one pointer-move in the merge/dwell branch. -/
structure DwellStepResult where
  state : MergeDwellState
  firedHoverOpen : Bool
  ranPlaceholderLogic : Bool
deriving DecidableEq, Repr

/-- The idle dwell state (all refs null/false as initialised in the hook). -/
def initialDwellState : MergeDwellState :=
  { potentialMergeTarget := none, hoverStartTime := 0, isPreMerge := false,
    mergeTargetId := none, hoveredFolderId := none, hoveredAppId := none }

/-- One pointer-move through the merge-candidate branch of `handleMouseMove`
(`useDragAndDrop.ts` lines 216-251).  `found` is the candidate produced by
the snapshot collision scan (id and item type), `now` is `Date.now()`.
When a candidate is detected the later `itemsRef` lookup succeeds by
construction (the scan took the candidate from the same list), so firing is
modelled unconditionally; `ranPlaceholderLogic` records whether control
reached the no-candidate reordering branch. -/
def mergeDwellStep (s : MergeDwellState) (now : Int)
    (found : Option (String × ItemType)) : DwellStepResult :=
  match found with
  | some (foundId, foundType) =>
    if s.potentialMergeTarget ≠ some foundId then
      { state := { potentialMergeTarget := some foundId, hoverStartTime := now,
                   isPreMerge := false, mergeTargetId := none,
                   hoveredFolderId := none, hoveredAppId := none },
        firedHoverOpen := false, ranPlaceholderLogic := false }
    else
      let dwellTime := now - s.hoverStartTime
      if foundType = ItemType.folder ∧ dwellTime > HOVER_OPEN_DELAY ∧ s.isPreMerge = false then
        { state := { s with potentialMergeTarget := none },
          firedHoverOpen := true, ranPlaceholderLogic := false }
      else if dwellTime > PRE_MERGE_DELAY ∧ s.isPreMerge = false then
        { state :=
            { s with
              isPreMerge := true
              mergeTargetId := some foundId
              hoveredFolderId :=
                (if foundType = ItemType.folder then some foundId else none)
              hoveredAppId :=
                (if foundType = ItemType.folder then none else some foundId) },
          firedHoverOpen := false, ranPlaceholderLogic := false }
      else
        { state := s, firedHoverOpen := false, ranPlaceholderLogic := false }
  | none =>
    { state := { s with potentialMergeTarget := none, isPreMerge := false },
      firedHoverOpen := false, ranPlaceholderLogic := true }

/-! ## Helper lemmas -/

theorem calcInsertIndexGo_all_le (mouseX : Int) (cnt : Nat) :
    ∀ (refs : List (Option Int)) (k : Nat),
      (∀ c : Int, some c ∈ refs → c ≤ mouseX) →
      calcInsertIndexGo mouseX cnt refs k = cnt := by
  intro refs
  induction refs with
  | nil => intro k _; rfl
  | cons oc rest ih =>
    intro k h
    cases oc with
    | none => exact ih (k + 1) fun c hc => h c (List.mem_cons_of_mem _ hc)
    | some c =>
      have hc : c ≤ mouseX := h c (List.mem_cons_self _ _)
      simp only [calcInsertIndexGo]
      rw [if_neg (by omega)]
      exact ih (k + 1) fun c2 hc2 => h c2 (List.mem_cons_of_mem _ hc2)

theorem calcInsertIndexGo_all_gt (mouseX : Int) :
    ∀ (rest : List Int) (j : Nat), (∀ c ∈ rest, mouseX < c) →
      calcInsertIndexGo mouseX (j + rest.length) (rest.map some) j = j := by
  intro rest j h
  cases rest with
  | nil => rfl
  | cons c t =>
    have hc : mouseX < c := h c (List.mem_cons_self _ _)
    simp only [List.map, calcInsertIndexGo]
    rw [if_pos hc]

theorem calcInsertIndexGo_at_center (mouseX : Int) :
    ∀ (centers : List Int) (k : Nat), centers.Pairwise (· < ·) →
      ∀ (i : Nat) (h : i < centers.length), mouseX = centers.get ⟨i, h⟩ →
      calcInsertIndexGo mouseX (k + centers.length) (centers.map some) k = k + i + 1 := by
  intro centers
  induction centers with
  | nil => intro k _ i h; simp at h
  | cons c rest ih =>
    intro k hpw i h heq
    have hpw2 := (List.pairwise_cons.mp hpw).2
    have hhead := (List.pairwise_cons.mp hpw).1
    cases i with
    | zero =>
      have hceq : mouseX = c := heq
      simp only [List.map, calcInsertIndexGo]
      rw [if_neg (by omega)]
      have hgt : ∀ c2 ∈ rest, mouseX < c2 := fun c2 hc2 => hceq ▸ hhead c2 hc2
      have := calcInsertIndexGo_all_gt mouseX rest (k + 1) hgt
      have hlen : k + (c :: rest).length = (k + 1) + rest.length := by
        simp [List.length_cons]; omega
      rw [hlen, this]
    | succ n =>
      have hn : n < rest.length := by simpa [List.length_cons] using h
      have heq2 : mouseX = rest.get ⟨n, hn⟩ := heq
      have hmem : rest.get ⟨n, hn⟩ ∈ rest := List.get_mem rest n hn
      have hcx : c < mouseX := heq2 ▸ hhead _ hmem
      simp only [List.map, calcInsertIndexGo]
      rw [if_neg (by omega)]
      have hlen : k + (c :: rest).length = (k + 1) + rest.length := by
        simp [List.length_cons]; omega
      rw [hlen, ih (k + 1) hpw2 n hn heq2]
      omega

theorem calcInsertIndexGo_ge (mouseX : Int) (cnt : Nat) :
    ∀ (refs : List (Option Int)) (k : Nat), k + refs.length ≤ cnt →
      k ≤ calcInsertIndexGo mouseX cnt refs k := by
  intro refs
  induction refs with
  | nil => intro k hk; simpa [calcInsertIndexGo] using by omega
  | cons oc rest ih =>
    intro k hk
    have hk2 : (k + 1) + rest.length ≤ cnt := by
      simp only [List.length_cons] at hk; omega
    cases oc with
    | none =>
      simp only [calcInsertIndexGo]
      have := ih (k + 1) hk2
      omega
    | some c =>
      simp only [calcInsertIndexGo]
      split
      · exact Nat.le_refl k
      · have := ih (k + 1) hk2
        omega

theorem calcInsertIndexGo_mono (x1 x2 : Int) (hx : x1 ≤ x2) (cnt : Nat) :
    ∀ (refs : List (Option Int)) (k : Nat), k + refs.length ≤ cnt →
      calcInsertIndexGo x1 cnt refs k ≤ calcInsertIndexGo x2 cnt refs k := by
  intro refs
  induction refs with
  | nil => intro k _; simp [calcInsertIndexGo]
  | cons oc rest ih =>
    intro k hk
    have hk2 : (k + 1) + rest.length ≤ cnt := by
      simp only [List.length_cons] at hk; omega
    cases oc with
    | none => exact ih (k + 1) hk2
    | some c =>
      simp only [calcInsertIndexGo]
      by_cases h2 : x2 < c
      · rw [if_pos h2, if_pos (by omega)]
      · rw [if_neg h2]
        by_cases h1 : x1 < c
        · rw [if_pos h1]
          have := calcInsertIndexGo_ge x2 cnt rest (k + 1) hk2
          omega
        · rw [if_neg h1]
          exact ih (k + 1) hk2

theorem cons_eraseIdx_perm : ∀ (l : List α) (i : Nat) (x : α), l[i]? = some x →
    l.Perm (x :: (l.take i ++ l.drop (i + 1))) := by
  intro l
  induction l with
  | nil => intro i x h; simp at h
  | cons a t ih =>
    intro i x h
    cases i with
    | zero =>
      simp only [List.getElem?_cons_zero, Option.some.injEq] at h
      subst h
      simp
    | succ n =>
      simp only [List.getElem?_cons_succ] at h
      have h1 := (ih n x h).cons a
      have h2 : (a :: (x :: (t.take n ++ t.drop (n + 1)))).Perm
          (x :: (a :: (t.take n ++ t.drop (n + 1)))) := List.Perm.swap x a _
      simpa using h1.trans h2

/-! ## Claim C3 -/

/-- Claim C3: for every list `L` and indices `src ≠ dst` inside `L`,
`reorderList L src dst` succeeds with a result that is a permutation of
`L` and whose element at position `dst` is `L[src]` (remove-then-insert
semantics). -/
theorem c3_reorderList_perm_moved (L : List α) (src dst : Nat)
    (hs : src < L.length) (hd : dst < L.length) (_hne : src ≠ dst) :
    ∃ R, reorderList L src dst = some R ∧ R.Perm L ∧ R[dst]? = L[src]? := by
  have hm : L[src]? = some L[src] := List.getElem?_eq_getElem hs
  refine ⟨(L.take src ++ L.drop (src + 1)).take dst ++
      L[src] :: (L.take src ++ L.drop (src + 1)).drop dst, ?_, ?_, ?_⟩
  · simp only [reorderList, hm]
  · have h1 : ((L.take src ++ L.drop (src + 1)).take dst ++
        L[src] :: (L.take src ++ L.drop (src + 1)).drop dst).Perm
        (L[src] :: ((L.take src ++ L.drop (src + 1)).take dst ++
          (L.take src ++ L.drop (src + 1)).drop dst)) := List.perm_middle
    rw [List.take_append_drop] at h1
    exact h1.trans (cons_eraseIdx_perm L src L[src] hm).symm
  · have hrestlen : (L.take src ++ L.drop (src + 1)).length = L.length - 1 := by
      simp [List.length_take, List.length_drop]; omega
    have htk : ((L.take src ++ L.drop (src + 1)).take dst).length = dst := by
      simp only [List.length_take, hrestlen]; omega
    rw [List.getElem?_append_right (by omega), htk, Nat.sub_self]
    simp [hm]

/-- Witness for C3 at the concrete list `[10, 20, 30, 40]`, `src = 1`,
`dst = 3`. -/
theorem c3_witness :
    ∃ R, reorderList [10, 20, 30, 40] 1 3 = some R ∧ R.Perm [10, 20, 30, 40] ∧
      R[3]? = [10, 20, 30, 40][1]? :=
  c3_reorderList_perm_moved [10, 20, 30, 40] 1 3 (by decide) (by decide) (by decide)

/-! ## Claim C6 -/

/-- Counterexample to C6 as stated: with item centers at 10 and 20 and the
pointer exactly at the first item's center (X = 10, trivially not less than
every earlier center), `calculateInsertIndex` returns 1, not 0: a pointer
exactly at a center does NOT resolve to inserting before that item. -/
theorem c6_counterexample :
    calculateInsertIndex 10 [some 10, some 20] 2 ≠ 0 ∧
    calculateInsertIndex 10 [some 10, some 20] 2 = 1 := by decide

/-- Claim C6 (amended): the comparison `mouseX < centerX` is strict, so for
a snapshot with strictly increasing centers a pointer exactly at the i-th
item's center resolves to inserting AFTER that item (index `i + 1`); the
append clause is as claimed: a pointer not less than every center yields
`count`. -/
theorem c6_amended (mouseX : Int) (centers : List Int)
    (hsorted : centers.Pairwise (· < ·)) :
    (∀ (i : Nat) (h : i < centers.length), mouseX = centers.get ⟨i, h⟩ →
      calculateInsertIndex mouseX (centers.map some) centers.length = i + 1)
    ∧ ((∀ c ∈ centers, c ≤ mouseX) →
      calculateInsertIndex mouseX (centers.map some) centers.length = centers.length) := by
  constructor
  · intro i h heq
    have := calcInsertIndexGo_at_center mouseX centers 0 hsorted i h heq
    simpa [calculateInsertIndex] using this
  · intro hall
    exact calcInsertIndexGo_all_le mouseX centers.length (centers.map some) 0
      (by intro c hc; rcases List.mem_map.mp hc with ⟨c2, hc2, he⟩;
          cases he; exact hall c hc2)

/-- Witness for the amended C6: centers `[10, 30]`, pointer at 10 inserts
after item 0 (index 1); pointer at 40 (≥ all centers) appends (index 2). -/
theorem c6_witness :
    calculateInsertIndex 10 (([10, 30] : List Int).map some)
        ([10, 30] : List Int).length = 0 + 1 ∧
    calculateInsertIndex 40 (([10, 30] : List Int).map some)
        ([10, 30] : List Int).length = ([10, 30] : List Int).length := by
  constructor
  · exact (c6_amended 10 [10, 30] (by decide)).1 0 (by decide) (by decide)
  · exact (c6_amended 40 [10, 30] (by decide)).2 (by decide)

/-! ## Claim C9 -/

/-- Counterexample to C9 as stated: for the snapshot `[some 10, some 100]`
with item count 0 the function is not monotone in the pointer X: it returns
1 at X = 50 but 0 (the count fallback) at X = 200 ≥ 50. -/
theorem c9_counterexample :
    (50 : Int) ≤ 200 ∧
    ¬ (calculateInsertIndex 50 [some 10, some 100] 0 ≤
        calculateInsertIndex 200 [some 10, some 100] 0) := by decide

/-- Claim C9 (amended): monotonicity in pointer X holds for every snapshot
and item count with `itemRefs.length ≤ itemCount` (in the code the count is
always the number of items backing the refs, so every found index stays
below the count fallback). -/
theorem c9_amended (itemRefs : List (Option Int)) (itemCount : Nat)
    (hcount : itemRefs.length ≤ itemCount) (x1 x2 : Int) (hx : x1 ≤ x2) :
    calculateInsertIndex x1 itemRefs itemCount ≤
      calculateInsertIndex x2 itemRefs itemCount := by
  exact calcInsertIndexGo_mono x1 x2 hx itemCount itemRefs 0 (by omega)

/-- Witness for the amended C9 at snapshot `[some 10, some 100]`, count 2,
pointer pair 50 ≤ 200. -/
theorem c9_witness :
    calculateInsertIndex 50 [some 10, some 100] 2 ≤
      calculateInsertIndex 200 [some 10, some 100] 2 :=
  c9_amended [some 10, some 100] 2 (by decide) 50 200 (by decide)

/-! ## Claim C7 -/

/-- Claim C7: displacement rules of the horizontal (dock) strategy for a
non-null `targetSlot` `ts`.  During an internal drag (`isDragging`,
`orig ≥ 0`): the dragged item gets zero displacement; all items get zero
displacement when `ts = orig` or `ts = orig + 1`; items strictly between
the source index and the target slot (`orig < i < ts` on a forward drag,
`ts ≤ i < orig` on a backward drag, reading the slot as the gap before item
`ts`) slide by one cell width (72px) opposite the drag direction; all other
items get zero displacement.  For an external drag (`orig = -1`) every item
with index `≥ ts` shifts by one cell width, every other item by zero. -/
theorem c7_horizontal_transform (index ts orig : Int) :
    ((0 : Int) ≤ orig →
      horizontalCalculateTransform orig (some ts) orig true = (0, 0))
    ∧ ((0 : Int) ≤ orig → (ts = orig ∨ ts = orig + 1) →
      horizontalCalculateTransform index (some ts) orig true = (0, 0))
    ∧ ((0 : Int) ≤ orig → orig < index → index < ts →
      horizontalCalculateTransform index (some ts) orig true = (-72, 0))
    ∧ ((0 : Int) ≤ ts → ts ≤ index → index < orig →
      horizontalCalculateTransform index (some ts) orig true = (72, 0))
    ∧ ((0 : Int) ≤ orig → index ≠ orig →
      ¬(orig < index ∧ index < ts) → ¬(ts ≤ index ∧ index < orig) →
      horizontalCalculateTransform index (some ts) orig true = (0, 0))
    ∧ (∀ b : Bool, ts ≤ index →
      horizontalCalculateTransform index (some ts) (-1) b = (72, 0))
    ∧ (∀ b : Bool, index < ts →
      horizontalCalculateTransform index (some ts) (-1) b = (0, 0)) := by
  refine ⟨?_, ?_, ?_, ?_, ?_, ?_, ?_⟩ <;>
    [skip; skip; skip; skip; skip; intro b; intro b] <;>
    intros <;>
    simp only [horizontalCalculateTransform, dockCellSize] <;>
    split_ifs <;>
    first
      | rfl
      | (exfalso; omega)
      | (exfalso; simp_all)

/-- Witness for C7: internal drag of item 0 toward slot 3 in the dock
displaces items 1 and 2 left by one cell; external drag with slot 1 shifts
item 2 right by one cell. -/
theorem c7_witness :
    horizontalCalculateTransform 1 (some 3) 0 true = (-72, 0) ∧
    horizontalCalculateTransform 2 (some 0) (-1) true = (72, 0) := by
  constructor
  · exact (c7_horizontal_transform 1 3 0).2.2.1 (by decide) (by decide) (by decide)
  · exact (c7_horizontal_transform 2 0 (-1)).2.2.2.2.2.1 true (by decide)

/-! ## Claim C8 -/

/-- Claim C8: displacement rules of the 4-column grid (folder) strategy for
a non-null `targetSlot` `ts`.  A backward internal drag (`orig > ts`)
displaces exactly the indices in `[ts, orig)` to the grid cell of
`index + 1`; a forward internal drag displaces exactly `(orig, ts]` to the
cell of `index - 1`; an external insertion (`orig = -1`) displaces exactly
`[ts, ∞)` to the cell of `index + 1`; the displacement between the cell
`(index / 4, index % 4)` and the target cell is the pixel delta
`((targetCol - currentCol) * 72, (targetRow - currentRow) * 72)`; every
index outside the affected range gets zero displacement. -/
theorem c8_grid_transform (index ts orig : Int) :
    ((0 : Int) ≤ ts → ts ≤ index → index < orig →
      gridCalculateTransform index (some ts) orig true =
        (((index + 1).tmod 4 - index.tmod 4) * 72,
         ((index + 1).fdiv 4 - index.fdiv 4) * 72))
    ∧ ((0 : Int) ≤ orig → orig < index → index ≤ ts →
      gridCalculateTransform index (some ts) orig true =
        (((index - 1).tmod 4 - index.tmod 4) * 72,
         ((index - 1).fdiv 4 - index.fdiv 4) * 72))
    ∧ (∀ b : Bool, ts ≤ index →
      gridCalculateTransform index (some ts) (-1) b =
        (((index + 1).tmod 4 - index.tmod 4) * 72,
         ((index + 1).fdiv 4 - index.fdiv 4) * 72))
    ∧ (∀ b : Bool, index < ts →
      gridCalculateTransform index (some ts) (-1) b = (0, 0))
    ∧ ((0 : Int) ≤ orig → ¬(ts ≤ index ∧ index < orig) →
      ¬(orig < index ∧ index ≤ ts) →
      gridCalculateTransform index (some ts) orig true = (0, 0)) := by
  have hz1 : calculateZShapedOffset index (index + 1) =
      (((index + 1).tmod 4 - index.tmod 4) * 72,
       ((index + 1).fdiv 4 - index.fdiv 4) * 72) := by
    simp only [calculateZShapedOffset, folderColumns, folderCellSize]
    rw [if_neg (by omega)]
  have hz2 : calculateZShapedOffset index (index - 1) =
      (((index - 1).tmod 4 - index.tmod 4) * 72,
       ((index - 1).fdiv 4 - index.fdiv 4) * 72) := by
    simp only [calculateZShapedOffset, folderColumns, folderCellSize]
    rw [if_neg (by omega)]
  refine ⟨?_, ?_, ?_, ?_, ?_⟩ <;>
    [skip; skip; intro b; intro b; skip] <;>
    intros <;>
    simp only [gridCalculateTransform] <;>
    split_ifs <;>
    first
      | rfl
      | exact hz1
      | exact hz2
      | (exfalso; omega)
      | (exfalso; simp_all)

/-- Witness for C8: backward internal drag from index 5 to slot 1 moves
item 3 (cell row 0, col 3) to the cell of index 4 (row 1, col 0), i.e. by
(-216, 72); an external insertion at slot 1 leaves item 0 unmoved. -/
theorem c8_witness :
    gridCalculateTransform 3 (some 1) 5 true =
      ((((3 : Int) + 1).tmod 4 - (3 : Int).tmod 4) * 72,
       (((3 : Int) + 1).fdiv 4 - (3 : Int).fdiv 4) * 72) ∧
    gridCalculateTransform 0 (some 1) (-1) true = (0, 0) := by
  constructor
  · exact (c8_grid_transform 3 1 5).1 (by decide) (by decide) (by decide)
  · exact (c8_grid_transform 0 1 (-1)).2.2.2.1 true (by decide)

/-! ## Claim C5 -/

/-- The dwell state after a first pointer-move detecting folder "F" at
time 0 (candidate switch: timer restarts). -/
def dwellTraceS1 : MergeDwellState :=
  (mergeDwellStep initialDwellState 0 (some ("F", ItemType.folder))).state

/-- The dwell state after a second pointer-move on the same folder
candidate at time 400 (enters pre-merge, 400 > 300). -/
def dwellTraceS2 : MergeDwellState :=
  (mergeDwellStep dwellTraceS1 400 (some ("F", ItemType.folder))).state

/-- Counterexample to C5 as stated: dwelling continuously on folder "F"
with pointer-moves at t = 0, 400 and 600, the move at t = 600 has dwell
600ms > 500ms on the same folder candidate, yet `onHoverOpenFolder` does
NOT fire: the `!isPreMergeRef.current` guard blocks hover-open once the
move at t = 400 entered the pre-merge state. -/
theorem c5_counterexample :
    dwellTraceS2.potentialMergeTarget = some "F" ∧
    dwellTraceS2.isPreMerge = true ∧
    600 - dwellTraceS2.hoverStartTime > HOVER_OPEN_DELAY ∧
    (mergeDwellStep dwellTraceS2 600 (some ("F", ItemType.folder))).firedHoverOpen
      = false := by decide

/-- Claim C5 (amended): dwell transitions are time-ordered as claimed —
pre-merge is never entered at dwell ≤ 300ms, hover-open never fires at
dwell ≤ 500ms, and a candidate switch restarts the timer — but the
500ms hover-open firing on the next processed move additionally requires
that the pre-merge state has not been entered yet (entering pre-merge at
dwell > 300ms permanently suppresses hover-open for the candidate). -/
theorem c5_dwell_ordering (s : MergeDwellState) (now : Int) (fid : String)
    (ft : ItemType) :
    (∀ found, (mergeDwellStep s now found).state.isPreMerge = true →
      s.isPreMerge = false →
      found.map Prod.fst = s.potentialMergeTarget ∧
      now - s.hoverStartTime > PRE_MERGE_DELAY)
    ∧ (∀ found, (mergeDwellStep s now found).firedHoverOpen = true →
      s.isPreMerge = false ∧ now - s.hoverStartTime > HOVER_OPEN_DELAY ∧
      found.map Prod.snd = some ItemType.folder ∧
      found.map Prod.fst = s.potentialMergeTarget ∧
      (mergeDwellStep s now found).ranPlaceholderLogic = false)
    ∧ (s.potentialMergeTarget = some fid →
      now - s.hoverStartTime > HOVER_OPEN_DELAY → s.isPreMerge = false →
      (mergeDwellStep s now (some (fid, ItemType.folder))).firedHoverOpen = true ∧
      (mergeDwellStep s now (some (fid, ItemType.folder))).ranPlaceholderLogic = false)
    ∧ (s.potentialMergeTarget ≠ some fid →
      (mergeDwellStep s now (some (fid, ft))).state.hoverStartTime = now ∧
      (mergeDwellStep s now (some (fid, ft))).state.isPreMerge = false ∧
      (mergeDwellStep s now (some (fid, ft))).firedHoverOpen = false) := by
  refine ⟨?_, ?_, ?_, ?_⟩
  · intro found hpm hpre
    match found with
    | none => simp [mergeDwellStep] at hpm
    | some (fid2, ft2) =>
      simp only [mergeDwellStep] at hpm ⊢
      split_ifs at hpm with h1 h2 h3 <;> simp_all
  · intro found hfo
    match found with
    | none => simp [mergeDwellStep] at hfo
    | some (fid2, ft2) =>
      simp only [mergeDwellStep] at hfo ⊢
      split_ifs at hfo with h1 h2 h3
      simp_all
  · intro hsame hdwell hpre
    have h : mergeDwellStep s now (some (fid, ItemType.folder)) =
        { state := { s with potentialMergeTarget := none },
          firedHoverOpen := true, ranPlaceholderLogic := false } := by
      simp only [mergeDwellStep]
      rw [if_neg (by simp [hsame]), if_pos ⟨by trivial, hdwell, hpre⟩]
    rw [h]
    exact ⟨rfl, rfl⟩
  · intro hdiff
    refine ⟨?_, ?_, ?_⟩ <;> simp [mergeDwellStep, hdiff]

/-- Witness for the amended C5: in the state reached after first detecting
folder "F" at t = 0, a move at t = 501 (dwell 501ms > 500ms, pre-merge not
entered) fires hover-open and skips the placeholder logic. -/
theorem c5_witness :
    (mergeDwellStep dwellTraceS1 501 (some ("F", ItemType.folder))).firedHoverOpen
        = true ∧
    (mergeDwellStep dwellTraceS1 501 (some ("F", ItemType.folder))).ranPlaceholderLogic
        = false :=
  (c5_dwell_ordering dwellTraceS1 501 "F" ItemType.folder).2.2.1
    (by decide) (by decide) (by decide)

/-! ## Claim C2 -/

theorem insertIdx_eq_take_cons_drop (l : List α) (i : Nat) (x : α)
    (h : i ≤ l.length) : l.insertIdx i x = l.take i ++ x :: l.drop i := by
  induction l generalizing i with
  | nil =>
    have : i = 0 := by simpa using h
    subst this
    rfl
  | cons hd t ih =>
    cases i with
    | zero => rfl
    | succ n =>
      have hn : n ≤ t.length := by simpa using h
      simp only [List.insertIdx_succ_cons, List.take_succ_cons, List.drop_succ_cons,
        List.cons_append, ih n hn]

/-- Builds the `LayoutSnapshot` entry captured at drag start for an item
shown at `idx` with center X `cx` (rect coordinates irrelevant here). -/
def mkSnap (i : DockItem) (idx : Nat) (cx : Int) : LayoutItem :=
  { id := i.id, index := idx, rectLeft := 0, rectTop := 0, rectRight := 0,
    rectBottom := 0, centerX := cx, centerY := 0 }

/-- Claim C2: releasing a dock drag with no merge/drop pending and
placeholder `p` commits the list obtained by removing the element at
`originalIndex` and reinserting it at `p - 1` when `p > originalIndex`,
else at `p`; in particular for dock `[A, B, C, D]` (ascending centers),
dragging `A` and releasing with the pointer past `C`'s center and before
`D`'s center commits `[B, C, A, D]`. -/
theorem c2_reorder_commit (a b c d : DockItem) (c0 c1 c2 c3 mouseX : Int)
    (h01 : c0 ≤ c1) (h12 : c1 ≤ c2) (hpast : c2 < mouseX) (hbefore : mouseX < c3) :
    (∀ (L : List DockItem) (o p : Nat) (ho : o < L.length), p ≤ L.length →
      dockReorderCommit L (o : Int) p =
        (L.eraseIdx o).insertIdx (if o < p then p - 1 else p) (L.get ⟨o, ho⟩))
    ∧ dockReorderCommit [a, b, c, d] 0
        (dockComputePlaceholder mouseX
          [mkSnap a 0 c0, mkSnap b 1 c1, mkSnap c 2 c2, mkSnap d 3 c3] 4)
      = [b, c, a, d] := by
  constructor
  · intro L o p ho hp
    have hmv : L[o]? = some L[o] := List.getElem?_eq_getElem ho
    have hlen : (L.eraseIdx o).length = L.length - 1 := by
      rw [List.length_eraseIdx]
      simp [ho]
    have hble : (if o < p then p - 1 else p) ≤ (L.eraseIdx o).length := by
      rw [hlen]; split_ifs <;> omega
    simp only [dockReorderCommit, Int.toNat_natCast]
    rw [if_neg (by omega), hmv]
    rw [insertIdx_eq_take_cons_drop _ _ _ hble, List.eraseIdx_eq_take_drop_succ]
    have hidx : (if (p : Int) > (o : Int) then p - 1 else p) =
        (if o < p then p - 1 else p) := by
      split_ifs <;> omega
    rw [hidx, List.get_eq_getElem]
  · have hp3 : dockComputePlaceholder mouseX
        [mkSnap a 0 c0, mkSnap b 1 c1, mkSnap c 2 c2, mkSnap d 3 c3] 4 = 3 := by
      simp only [dockComputePlaceholder, dockPlaceholderGo, mkSnap, List.length_cons,
        List.length_nil]
      rw [if_pos (by omega), if_neg (by omega), if_neg (by omega), if_neg (by omega),
        if_neg (by omega), if_pos (by omega)]
    rw [hp3]
    rfl

/-- Witness items for concrete scenarios. -/
def wItemA : DockItem := .mk "a" "A" none ItemType.app none

/-- Witness item B. -/
def wItemB : DockItem := .mk "b" "B" none ItemType.app none

/-- Witness item C. -/
def wItemC : DockItem := .mk "c" "C" none ItemType.app none

/-- Witness item D. -/
def wItemD : DockItem := .mk "d" "D" none ItemType.app none

/-- Witness for C2 at centers 100/200/300/400 with the pointer at 350. -/
theorem c2_witness :
    dockReorderCommit [wItemA, wItemB, wItemC, wItemD] 0
        (dockComputePlaceholder 350
          [mkSnap wItemA 0 100, mkSnap wItemB 1 200,
           mkSnap wItemC 2 300, mkSnap wItemD 3 400] 4)
      = [wItemB, wItemC, wItemA, wItemD] :=
  (c2_reorder_commit wItemA wItemB wItemC wItemD 100 200 300 400 350
    (by decide) (by decide) (by decide) (by decide)).2

/-! ## Helper lemmas about unique ids and `checkAndDissolveFolderIfNeeded` -/

theorem idsNodup_cons (a : DockItem) (t : List DockItem)
    (h : idsNodup (a :: t)) : a.id ∉ t.map DockItem.id ∧ idsNodup t := by
  simpa [idsNodup, List.nodup_cons] using h

theorem ids_unique_mem (L : List DockItem) (hnd : idsNodup L) :
    ∀ i ∈ L, ∀ j ∈ L, i.id = j.id → i = j := by
  induction L with
  | nil => intro i hi; simp at hi
  | cons a t ih =>
    intro i hi j hj hid
    obtain ⟨hnotin, hndt⟩ := idsNodup_cons a t hnd
    rcases List.mem_cons.mp hi with rfl | hit
    · rcases List.mem_cons.mp hj with rfl | hjt
      · rfl
      · exact absurd (by rw [hid]; exact List.mem_map_of_mem _ hjt) hnotin
    · rcases List.mem_cons.mp hj with rfl | hjt
      · exact absurd (by rw [← hid]; exact List.mem_map_of_mem _ hit) hnotin
      · exact ih hndt i hit j hjt hid

theorem find_and_index_at (f : String) :
    ∀ (L : List DockItem), idsNodup L →
      ∀ (idx : Nat) (fo : DockItem), L[idx]? = some fo → fo.id = f →
      L.find? (fun i => i.id == f) = some fo ∧
      ∀ k : Nat, findIndexAux (fun i => i.id == f) L k = (k : Int) + idx := by
  intro L
  induction L with
  | nil => intro _ idx fo h; simp at h
  | cons a t ih =>
    intro hnd idx fo h hid
    obtain ⟨hnotin, hndt⟩ := idsNodup_cons a t hnd
    cases idx with
    | zero =>
      simp only [List.getElem?_cons_zero, Option.some.injEq] at h
      subst h
      refine ⟨List.find?_cons_of_pos t (by simp [hid]), fun k => ?_⟩
      simp [findIndexAux, hid]
    | succ n =>
      simp only [List.getElem?_cons_succ] at h
      have hfo_mem : fo ∈ t := List.mem_iff_getElem?.mpr ⟨n, h⟩
      have hane : ¬((a.id == f) = true) := by
        intro hcontra
        exact hnotin (by
          rw [show a.id = f by simpa using hcontra, ← hid]
          exact List.mem_map_of_mem _ hfo_mem)
      obtain ⟨hf, hidxa⟩ := ih hndt n fo h hid
      refine ⟨by rw [List.find?_cons_of_neg t hane]; exact hf, fun k => ?_⟩
      simp only [findIndexAux, if_neg hane, hidxa (k + 1)]
      push_cast
      ring

theorem ids_index_unique :
    ∀ (L : List DockItem), idsNodup L → ∀ (j idx : Nat) (x fo : DockItem),
      L[j]? = some x → L[idx]? = some fo → x.id = fo.id → j = idx := by
  intro L
  induction L with
  | nil => intro _ j idx x fo hj; simp at hj
  | cons a t ih =>
    intro hnd j idx x fo hj hidx hid
    obtain ⟨hnotin, hndt⟩ := idsNodup_cons a t hnd
    cases j with
    | zero =>
      cases idx with
      | zero => rfl
      | succ n =>
        simp only [List.getElem?_cons_zero, Option.some.injEq] at hj
        simp only [List.getElem?_cons_succ] at hidx
        subst hj
        exact absurd (by
          rw [hid]
          exact List.mem_map_of_mem _ (List.mem_iff_getElem?.mpr ⟨n, hidx⟩)) hnotin
    | succ m =>
      cases idx with
      | zero =>
        simp only [List.getElem?_cons_zero, Option.some.injEq] at hidx
        simp only [List.getElem?_cons_succ] at hj
        subst hidx
        exact absurd (by
          rw [← hid]
          exact List.mem_map_of_mem _ (List.mem_iff_getElem?.mpr ⟨m, hj⟩)) hnotin
      | succ n =>
        simp only [List.getElem?_cons_succ] at hj hidx
        exact congrArg Nat.succ (ih hndt m n x fo hj hidx hid)

theorem filter_id_eq_erase (f : String) :
    ∀ (L : List DockItem), idsNodup L → ∀ (idx : Nat) (fo : DockItem),
      L[idx]? = some fo → fo.id = f →
      L.filter (fun i => !(i.id == f)) = L.take idx ++ L.drop (idx + 1) := by
  intro L
  induction L with
  | nil => intro _ idx fo h; simp at h
  | cons a t ih =>
    intro hnd idx fo h hid
    obtain ⟨hnotin, hndt⟩ := idsNodup_cons a t hnd
    cases idx with
    | zero =>
      simp only [List.getElem?_cons_zero, Option.some.injEq] at h
      subst h
      rw [List.filter_cons, if_neg (by simp [hid])]
      have : ∀ i ∈ t, (!(i.id == f)) = true := by
        intro i hit
        simp only [Bool.not_eq_eq_eq_not, Bool.not_true, beq_eq_false_iff_ne, ne_eq]
        intro hcontra
        exact hnotin (hid ▸ hcontra ▸ List.mem_map_of_mem _ hit)
      rw [List.filter_eq_self.mpr this]
      simp
    | succ n =>
      simp only [List.getElem?_cons_succ] at h
      have hfo_mem : fo ∈ t := List.mem_iff_getElem?.mpr ⟨n, h⟩
      have hane : (!(a.id == f)) = true := by
        simp only [Bool.not_eq_eq_eq_not, Bool.not_true, beq_eq_false_iff_ne, ne_eq]
        intro hcontra
        exact hnotin (hcontra ▸ hid ▸ List.mem_map_of_mem _ hfo_mem)
      rw [List.filter_cons, if_pos hane, ih hndt n fo h hid]
      simp

theorem checkAndDissolve_branches (f : String) (L : List DockItem)
    (hnd : idsNodup L) (idx : Nat) (fo : DockItem)
    (hidx : L[idx]? = some fo) (hid : fo.id = f)
    (hft : fo.type = ItemType.folder) :
    (fo.items = some [] →
      checkAndDissolveFolderIfNeeded f L = L.take idx ++ L.drop (idx + 1)) ∧
    (∀ x, fo.items = some [x] →
      checkAndDissolveFolderIfNeeded f L = L.set idx x) ∧
    (∀ y z rest, fo.items = some (y :: z :: rest) →
      checkAndDissolveFolderIfNeeded f L = L) ∧
    (fo.items = none → checkAndDissolveFolderIfNeeded f L = L) := by
  obtain ⟨hfind, hfia⟩ := find_and_index_at f L hnd idx fo hidx hid
  have hidxv : jsFindIndex (fun i => i.id == f) L = (idx : Int) := by
    rw [jsFindIndex, hfia 0]
    omega
  refine ⟨?_, ?_, ?_, ?_⟩
  · intro hits
    simp only [checkAndDissolveFolderIfNeeded, hfind, hft, hits, hidxv]
    rw [if_neg (by omega)]
    exact filter_id_eq_erase f L hnd idx fo hidx hid
  · intro x hits
    simp only [checkAndDissolveFolderIfNeeded, hfind, hft, hits, hidxv]
    rw [if_neg (by omega), Int.toNat_natCast]
  · intro y z rest hits
    simp only [checkAndDissolveFolderIfNeeded, hfind, hft, hits, hidxv]
    rw [if_neg (by omega)]
  · intro hits
    simp only [checkAndDissolveFolderIfNeeded, hfind, hft, hits]

/-! ## Claim C1 -/

/-- Claim C1: for a well-formed dock list (unique ids, no nested folders),
`checkAndDissolveFolderIfNeeded f` removes a folder with id `f` left with 0
items entirely, replaces a folder left with exactly 1 item by that item at
the same list index, and its result never contains a folder with id `f`
carrying an items list of fewer than 2 items — regardless of which mutation
(delete, drag-out, merge-extraction) produced the list. -/
theorem c1_auto_dissolution (f : String) (L : List DockItem)
    (hnd : idsNodup L) (hwf : noNestedFolders L = true) :
    (∀ (idx : Nat) (fo : DockItem), L[idx]? = some fo → fo.id = f →
      fo.type = ItemType.folder →
      (fo.items = some [] →
        checkAndDissolveFolderIfNeeded f L = L.take idx ++ L.drop (idx + 1)) ∧
      (∀ x, fo.items = some [x] →
        checkAndDissolveFolderIfNeeded f L = L.set idx x))
    ∧ (∀ i ∈ checkAndDissolveFolderIfNeeded f L, i.id = f →
        i.type = ItemType.folder → ∀ l, i.items = some l → 2 ≤ l.length) := by
  constructor
  · intro idx fo hidx hid hft
    obtain ⟨h0, h1, _, _⟩ := checkAndDissolve_branches f L hnd idx fo hidx hid hft
    exact ⟨h0, h1⟩
  · intro i hiR hif hit l hil
    cases hfind : L.find? (fun i2 => i2.id == f) with
    | none =>
      rw [show checkAndDissolveFolderIfNeeded f L = L from by
        simp only [checkAndDissolveFolderIfNeeded, hfind]] at hiR
      have := List.find?_eq_none.mp hfind i hiR
      simp [hif] at this
    | some fo =>
      have hmem : fo ∈ L := List.mem_of_find?_eq_some hfind
      have hfo_id : fo.id = f := by simpa using List.find?_some hfind
      obtain ⟨idx, hidx⟩ := List.mem_iff_getElem?.mp hmem
      obtain ⟨hlt, _⟩ := List.getElem?_eq_some_iff.mp hidx
      cases hft2 : fo.type with
      | app =>
        rw [show checkAndDissolveFolderIfNeeded f L = L from by
          simp only [checkAndDissolveFolderIfNeeded, hfind, hft2]] at hiR
        have hieq : i = fo := ids_unique_mem L hnd i hiR fo hmem (by rw [hif, hfo_id])
        rw [hieq, hft2] at hit
        exact absurd hit (by simp)
      | folder =>
        obtain ⟨hb0, hb1, hb2, hb3⟩ :=
          checkAndDissolve_branches f L hnd idx fo hidx hfo_id hft2
        cases hits : fo.items with
        | none =>
          rw [hb3 hits] at hiR
          have hieq : i = fo := ids_unique_mem L hnd i hiR fo hmem (by rw [hif, hfo_id])
          rw [hieq, hits] at hil
          cases hil
        | some fits =>
          obtain ⟨hfind2, hfia⟩ := find_and_index_at f L hnd idx fo hidx hfo_id
          have hidxv : jsFindIndex (fun i2 => i2.id == f) L = (idx : Int) := by
            rw [jsFindIndex, hfia 0]; omega
          cases fits with
          | nil =>
            rw [show checkAndDissolveFolderIfNeeded f L =
                L.filter (fun i2 => !(i2.id == f)) from by
              simp only [checkAndDissolveFolderIfNeeded, hfind, hft2, hits, hidxv]
              rw [if_neg (by omega)]] at hiR
            have := (List.mem_filter.mp hiR).2
            simp [hif] at this
          | cons x xs =>
            cases xs with
            | nil =>
              rw [hb1 x hits] at hiR
              obtain ⟨j, hj⟩ := List.mem_iff_getElem?.mp hiR
              by_cases hji : idx = j
              · subst hji
                rw [List.getElem?_set_self hlt] at hj
                have hix : i = x := by simpa using hj.symm
                have hfo_ok := List.all_eq_true.mp hwf fo hmem
                simp only [hft2, hits] at hfo_ok
                simp only [List.all_cons, List.all_nil, Bool.and_true] at hfo_ok
                rw [hix] at hit
                simp [hit] at hfo_ok
              · rw [List.getElem?_set_ne hji] at hj
                exact absurd (ids_index_unique L hnd j idx i fo hj hidx
                  (by rw [hif, hfo_id])) (fun h => hji h.symm)
            | cons z rest =>
              rw [hb2 x z rest hits] at hiR
              have hieq : i = fo := ids_unique_mem L hnd i hiR fo hmem (by rw [hif, hfo_id])
              rw [hieq, hits] at hil
              have hlz : l = x :: z :: rest := by simpa using hil.symm
              rw [hlz]
              simp

/-- The single remaining app of the 1-item folder used in witnesses. -/
def wFolderOne : DockItem := .mk "f" "F" none ItemType.folder (some [wItemC])

/-- Witness for C1: a dock `[A, folder f [C], B]` has its 1-item folder
dissolved in place into `C`. -/
theorem c1_witness :
    checkAndDissolveFolderIfNeeded "f" [wItemA, wFolderOne, wItemB] =
      [wItemA, wFolderOne, wItemB].set 1 wItemC :=
  (((c1_auto_dissolution "f" [wItemA, wFolderOne, wItemB] (by decide) (by rfl)).1)
    1 wFolderOne (by rfl) rfl rfl).2 wItemC rfl

/-! ## Claim C10 -/

/-- Claim C10: `checkAndDissolveFolderIfNeeded` is the identity whenever
the given id does not name a folder present in the list, or (for lists
with unique ids) names a folder with 2 or more items; and when it removes
a 0-item folder or dissolves a 1-item folder, only the folder's own slot
is affected — the prefix before it and the suffix after it are unchanged
and keep their relative order. -/
theorem c10_frame_conditions (f : String) (L : List DockItem) :
    ((∀ i ∈ L, i.id = f → i.type ≠ ItemType.folder) →
      checkAndDissolveFolderIfNeeded f L = L)
    ∧ (idsNodup L → ∀ (idx : Nat) (fo : DockItem) (l : List DockItem),
        L[idx]? = some fo → fo.id = f → fo.type = ItemType.folder →
        fo.items = some l → 2 ≤ l.length →
        checkAndDissolveFolderIfNeeded f L = L)
    ∧ (idsNodup L → ∀ (idx : Nat) (fo : DockItem), L[idx]? = some fo →
        fo.id = f → fo.type = ItemType.folder →
        (fo.items = some [] →
          checkAndDissolveFolderIfNeeded f L = L.take idx ++ L.drop (idx + 1)) ∧
        (∀ x, fo.items = some [x] →
          checkAndDissolveFolderIfNeeded f L =
            L.take idx ++ x :: L.drop (idx + 1))) := by
  refine ⟨?_, ?_, ?_⟩
  · intro hno
    cases hfind : L.find? (fun i2 => i2.id == f) with
    | none => simp only [checkAndDissolveFolderIfNeeded, hfind]
    | some fo =>
      have hmem : fo ∈ L := List.mem_of_find?_eq_some hfind
      have hfo_id : fo.id = f := by simpa using List.find?_some hfind
      cases hft2 : fo.type with
      | app =>
        simp only [checkAndDissolveFolderIfNeeded, hfind, hft2]
      | folder => exact absurd hft2 (hno fo hmem hfo_id)
  · intro hnd idx fo l hidx hid hft hits hlen
    obtain ⟨_, _, hb2, _⟩ := checkAndDissolve_branches f L hnd idx fo hidx hid hft
    cases l with
    | nil => simp at hlen
    | cons x xs =>
      cases xs with
      | nil => simp at hlen
      | cons z rest => exact hb2 x z rest hits
  · intro hnd idx fo hidx hid hft
    obtain ⟨hlt, _⟩ := List.getElem?_eq_some_iff.mp hidx
    obtain ⟨hb0, hb1, _, _⟩ := checkAndDissolve_branches f L hnd idx fo hidx hid hft
    refine ⟨hb0, fun x hits => ?_⟩
    rw [hb1 x hits]
    exact List.set_eq_take_cons_drop x hlt

/-- The 0-item folder used in the C10 witness. -/
def wFolderZero : DockItem := .mk "g" "G" none ItemType.folder (some [])

/-- Witness for C10: a dock `[A, folder g [], B]` has its 0-item folder
removed, leaving prefix and suffix unchanged. -/
theorem c10_witness :
    checkAndDissolveFolderIfNeeded "g" [wItemA, wFolderZero, wItemB] =
      [wItemA, wFolderZero, wItemB].take 1 ++ [wItemA, wFolderZero, wItemB].drop 2 :=
  (((c10_frame_conditions "g" [wItemA, wFolderZero, wItemB]).2.2 (by decide))
    1 wFolderZero (by rfl) rfl rfl).1 rfl

/-! ## Claim C4 -/

theorem withItems_mk (id name : String) (url : Option String) (t : ItemType)
    (its : Option (List DockItem)) (l : List DockItem) :
    withItems (.mk id name url t its) l = .mk id name url t (some l) := rfl

theorem payload_all (d : DockItem) (hpay : folderPayloadOk d = true) :
    (match d.type, d.items with
      | ItemType.folder, some dl => dl
      | _, _ => [d]).all (fun j => !(j.type == ItemType.folder)) = true := by
  unfold folderPayloadOk at hpay
  cases hd : d.type <;> cases hits : d.items <;>
    simp only [hd, hits] at hpay ⊢ <;> simp_all

theorem noNested_map_filter (L : List DockItem) (hwf : noNestedFolders L = true)
    (tid : String) (extra : List DockItem) (q : DockItem → Bool)
    (hextra : extra.all (fun j => !(j.type == ItemType.folder)) = true) :
    noNestedFolders ((L.map fun it =>
      if (it.id == tid) = true then withItems it (it.itemsD ++ extra)
      else it).filter q) = true := by
  simp only [noNestedFolders] at hwf ⊢
  rw [List.all_eq_true] at hwf ⊢
  intro x hx
  obtain ⟨i, hiL, hgi⟩ := List.mem_map.mp (List.mem_filter.mp hx).1
  rw [← hgi]
  by_cases hid : (i.id == tid) = true
  · rw [if_pos hid]
    have hok := hwf i hiL
    cases i with
    | mk id name url t its =>
      cases t with
      | app => rfl
      | folder =>
        cases its with
        | none => exact hextra
        | some inner =>
          have hin : inner.all (fun j => !(j.type == ItemType.folder)) = true := hok
          show (inner ++ extra).all (fun j => !(j.type == ItemType.folder)) = true
          rw [List.all_append]
          exact (Bool.and_eq_true _ _).mpr ⟨hin, hextra⟩
  · rw [if_neg hid]
    exact hwf i hiL

theorem noNested_map_filter_const (L : List DockItem)
    (hwf : noNestedFolders L = true) (tid : String)
    (newItems : List DockItem) (q : DockItem → Bool)
    (hnew : newItems.all (fun j => !(j.type == ItemType.folder)) = true) :
    noNestedFolders ((L.map fun it =>
      if (it.id == tid) = true then withItems it newItems else it).filter q)
      = true := by
  simp only [noNestedFolders] at hwf ⊢
  rw [List.all_eq_true] at hwf ⊢
  intro x hx
  obtain ⟨i, hiL, hgi⟩ := List.mem_map.mp (List.mem_filter.mp hx).1
  rw [← hgi]
  by_cases hid : (i.id == tid) = true
  · rw [if_pos hid]
    cases i with
    | mk id name url t its =>
      cases t with
      | app => rfl
      | folder =>
        show newItems.all (fun j => !(j.type == ItemType.folder)) = true
        exact hnew
  · rw [if_neg hid]
    exact hwf i hiL

/-- Claim C4: the operations preserve the two-level-tree invariant (no
folder directly contains a folder-typed item): dropping a well-formed
payload onto a folder merges the dragged folder's child items — never the
folder itself — and removes the dragged item from the root, and dragging a
folder into an open folder view is rejected without mutation; adding an
item to the open folder likewise preserves the invariant. -/
theorem c4_no_nested_folders (L : List DockItem)
    (dragItem targetFolder item : DockItem) (oid : Option String) :
    (noNestedFolders L = true → folderPayloadOk dragItem = true →
      noNestedFolders (handleDropOnFolder L dragItem targetFolder) = true)
    ∧ (targetFolder.type = ItemType.folder →
      ∀ j ∈ handleDropOnFolder L dragItem targetFolder, j.id ≠ dragItem.id)
    ∧ (item.type = ItemType.folder → handleDragToFolder L oid item = L)
    ∧ (noNestedFolders L = true →
      noNestedFolders (handleDragToFolder L oid item) = true) := by
  refine ⟨?_, ?_, ?_, ?_⟩
  · intro hwf hpay
    by_cases htt : targetFolder.type = ItemType.folder
    · simp only [handleDropOnFolder]
      rw [if_neg (fun h => h htt)]
      exact noNested_map_filter L hwf targetFolder.id _ _ (payload_all dragItem hpay)
    · simp only [handleDropOnFolder]
      rw [if_pos htt]
      exact hwf
  · intro htt j hj
    simp only [handleDropOnFolder] at hj
    rw [if_neg (fun h => h htt)] at hj
    have := (List.mem_filter.mp hj).2
    simpa using this
  · intro hitem
    match oid with
    | none => rfl
    | some fid => simp only [handleDragToFolder, if_pos hitem]
  · intro hwf
    match oid with
    | none => exact hwf
    | some fid =>
      simp only [handleDragToFolder]
      by_cases hitem : item.type = ItemType.folder
      · rw [if_pos hitem]; exact hwf
      · rw [if_neg hitem]
        split
        · exact hwf
        · rename_i folder hfind
          by_cases hff : folder.type = ItemType.folder
          · rw [if_neg (fun h => h hff)]
            have hfolder_mem : folder ∈ L := List.mem_of_find?_eq_some hfind
            have hnew : (folder.itemsD ++ [item]).all
                (fun j => !(j.type == ItemType.folder)) = true := by
              rw [List.all_append]
              refine (Bool.and_eq_true _ _).mpr ⟨?_, by simp [hitem]⟩
              have hwf2 := hwf
              simp only [noNestedFolders] at hwf2
              have hok := List.all_eq_true.mp hwf2 folder hfolder_mem
              cases folder with
              | mk id2 name2 url2 t2 its2 =>
                cases t2 with
                | app => simp [DockItem.type] at hff
                | folder =>
                  cases its2 with
                  | none => rfl
                  | some inner => exact hok
            exact noNested_map_filter_const L hwf fid _ _ hnew
          · rw [if_pos hff]
            exact hwf

/-- The app item added in the C4 witness. -/
def wItemE : DockItem := .mk "e" "E" none ItemType.app none

/-- A dragged 2-item folder used in the C4 witness (a well-formed payload). -/
def wFolderPayload : DockItem :=
  .mk "p" "P" none ItemType.folder (some [wItemD, wItemE])

/-- Witness for C4: dropping folder `p` (children D, E) onto folder `f`
of the dock `[folder f [C], folder p [D, E]]` keeps the dock free of
nested folders. -/
theorem c4_witness :
    noNestedFolders (handleDropOnFolder
      [.mk "f" "F" none ItemType.folder (some [wItemC]), wFolderPayload]
      wFolderPayload
      (.mk "f" "F" none ItemType.folder (some [wItemC]))) = true :=
  (c4_no_nested_folders
    [.mk "f" "F" none ItemType.folder (some [wItemC]), wFolderPayload]
    wFolderPayload (.mk "f" "F" none ItemType.folder (some [wItemC]))
    wFolderPayload none).1 (by rfl) (by rfl)

end EclipseTab
